import Mathlib

/-!
Shallow embedding of `src/save-metadata-manager.js` (class SaveMetadataManager).

The manager owns one in-memory metadata record and a backing file
`<saveDirectory>/metadata.json`.  We model:
  * the metadata record (`Metadata`, `SaveEntry`, `Statistics`) with the
    exact fields of the JS object literals;
  * the filesystem visible to the manager (`World`): the save files of the
    directory as an association list from filename to byte list, the backing
    metadata file slot, the quarantine copies made for corrupted metadata,
    plus injected-failure flags for write/rename, copyFile and readdir, and
    a ghost counter of successful persist operations;
  * every method as a pure function returning the new in-memory record, the
    new world and the JS return/throw outcome (`StepResult`).

JS objects keyed by filename become association lists with in-place update
(`aset`), first-match lookup (`alookup`) and key deletion (`aerase`),
matching JS property-order semantics.  `Date.now()` timestamps and the
SHA-256 function are environment parameters: operations take the current
timestamp and the digest function as arguments.  Node error messages are
modelled by fixed strings that keep the substrings the code inspects
(`ENOENT`).
-/

namespace SkidInc

/-- Association-list lookup: first binding of the key, as JS property access. -/
def alookup {α : Type} : List (String × α) → String → Option α
  | [], _ => none
  | (k, v) :: rest, f => if k = f then some v else alookup rest f

/-- Association-list update: overwrite the first binding in place, else append,
as JS property assignment. -/
def aset {α : Type} : List (String × α) → String → α → List (String × α)
  | [], f, e => [(f, e)]
  | (k, v) :: rest, f, e => if k = f then (k, e) :: rest else (k, v) :: aset rest f e

/-- Association-list removal of the first binding of the key, as JS `delete`. -/
def aerase {α : Type} : List (String × α) → String → List (String × α)
  | [], _ => []
  | (k, v) :: rest, f => if k = f then rest else (k, v) :: aerase rest f

/-- `needle` is a prefix of `hay` (character lists). -/
def listStartsWith : List Char → List Char → Bool
  | [], _ => true
  | _ :: _, [] => false
  | a :: as, b :: bs => a = b && listStartsWith as bs

/-- `needle` occurs as a contiguous sublist of `hay`. -/
def listHasSub (needle : List Char) : List Char → Bool
  | [] => listStartsWith needle []
  | c :: cs => listStartsWith needle (c :: cs) || listHasSub needle cs

/-- JS `hay.includes(needle)` on strings. -/
def strIncludes (hay needle : String) : Bool :=
  listHasSub needle.toList hay.toList

/-- The `statistics` sub-object of the metadata record. -/
structure Statistics where
  totalSaveOperations : Nat
  totalLoadOperations : Nat
  lastSuccessfulSave : Option Nat
  lastSuccessfulLoad : Option Nat
  averageSaveSize : Nat
  totalDiskUsage : Nat
deriving Repr, DecidableEq

/-- One tracked save file: the object stored at `metadata.saves[filename]`.
`lastAccessed` is absent until `recordLoadOperation` first sets it. -/
structure SaveEntry where
  filename : String
  checksum : String
  size : Nat
  created : Nat
  lastModified : Nat
  lastAccessed : Option Nat
  isBackup : Bool
  saveCount : Nat
  gameVersion : String
  playerLevel : Nat
deriving Repr, DecidableEq

/-- The full metadata record (`this.metadata`). -/
structure Metadata where
  version : String
  lastSave : Option Nat
  autoSaveEnabled : Bool
  autoSaveInterval : Nat
  backupCount : Nat
  totalSaves : Nat
  migrationCompleted : Bool
  saves : List (String × SaveEntry)
  statistics : Statistics
deriving Repr, DecidableEq

/-- The constructor's `statistics` literal. -/
def defaultStatistics : Statistics :=
  { totalSaveOperations := 0
    totalLoadOperations := 0
    lastSuccessfulSave := none
    lastSuccessfulLoad := none
    averageSaveSize := 0
    totalDiskUsage := 0 }

/-- The constructor's `this.metadata` literal (the bootstrap record). -/
def defaultMetadata : Metadata :=
  { version := "1.0.0"
    lastSave := none
    autoSaveEnabled := true
    autoSaveInterval := 30000
    backupCount := 10
    totalSaves := 0
    migrationCompleted := false
    saves := []
    statistics := defaultStatistics }

/-- A parsed JSON document for the metadata file: every top-level field may be
absent, which is what the merge-over-defaults in `loadMetadata` reacts to.
`JSON.stringify` of a full record produces a document with every field
present. -/
structure MetaDoc where
  version : Option String := none
  lastSave : Option (Option Nat) := none
  autoSaveEnabled : Option Bool := none
  autoSaveInterval : Option Nat := none
  backupCount : Option Nat := none
  totalSaves : Option Nat := none
  migrationCompleted : Option Bool := none
  saves : Option (List (String × SaveEntry)) := none
  statistics : Option Statistics := none
deriving Repr, DecidableEq

/-- Serialization of the in-memory record: `JSON.stringify` emits every field. -/
def toDoc (m : Metadata) : MetaDoc :=
  { version := some m.version
    lastSave := some m.lastSave
    autoSaveEnabled := some m.autoSaveEnabled
    autoSaveInterval := some m.autoSaveInterval
    backupCount := some m.backupCount
    totalSaves := some m.totalSaves
    migrationCompleted := some m.migrationCompleted
    saves := some m.saves
    statistics := some m.statistics }

/-- The spread `{ ...this.metadata, ...loadedMetadata }`: each field present in
the loaded document overwrites the default. -/
def mergeDefaults (base : Metadata) (d : MetaDoc) : Metadata :=
  { version := d.version.getD base.version
    lastSave := d.lastSave.getD base.lastSave
    autoSaveEnabled := d.autoSaveEnabled.getD base.autoSaveEnabled
    autoSaveInterval := d.autoSaveInterval.getD base.autoSaveInterval
    backupCount := d.backupCount.getD base.backupCount
    totalSaves := d.totalSaves.getD base.totalSaves
    migrationCompleted := d.migrationCompleted.getD base.migrationCompleted
    saves := d.saves.getD base.saves
    statistics := d.statistics.getD base.statistics }

/-- Content of the backing metadata file: a parseable document, or corrupt text
on which `JSON.parse` raises `SyntaxError`. -/
inductive MetaFileContent where
  | doc (d : MetaDoc)
  | corrupt (raw : String)
deriving Repr, DecidableEq

/-- The filesystem as the manager observes it, plus failure-injection flags and
a ghost counter of successful persists.  `saveFiles` are the ordinary files of
the save directory; `metaFile` is the `metadata.json` slot; `quarantine` holds
the `metadata_corrupted_*.json` copies (also in the same directory). -/
structure World where
  saveFiles : List (String × List Nat)
  metaFile : Option MetaFileContent
  quarantine : List (String × MetaFileContent)
  writeFails : Bool
  copyFails : Bool
  readdirFails : Bool
  persistCount : Nat
deriving Repr, DecidableEq

/-- Name of the backing file inside the save directory. -/
def metadataFileName : String := "metadata.json"

/-- `fs.readdir(saveDirectory)`: names of all files present. -/
def existingFiles (w : World) : List String :=
  w.saveFiles.map Prod.fst
    ++ (match w.metaFile with | some _ => [metadataFileName] | none => [])
    ++ w.quarantine.map Prod.fst

/-- Node's message for a missing file, kept to the substring the code inspects. -/
def enoentMsg : String := "ENOENT: no such file or directory"

/-- Outcome of one method call: the resulting in-memory record, the resulting
world, and the JS return value or thrown error message. -/
structure StepResult (α : Type) where
  newMeta : Metadata
  newWorld : World
  out : Except String α

/-- `saveMetadata()`: serialize and write-temp-then-rename.  On success the
backing slot holds the full serialized record; on injected write/rename
failure it throws and the world is unchanged. -/
def saveMetadata (w : World) (m : Metadata) : Except String World :=
  if w.writeFails then
    Except.error "Failed to save metadata: write failure"
  else
    Except.ok { w with
      metaFile := some (MetaFileContent.doc (toDoc m))
      persistCount := w.persistCount + 1 }

/-- `new Date().toISOString().replace(/[:.]/g, '-')`. -/
def sanitizeTimestamp (ts : String) : String :=
  String.map (fun c => if c = ':' ∨ c = '.' then '-' else c) ts

/-- Quarantine filename `metadata_corrupted_<timestamp>.json`. -/
def corruptedBackupName (ts : String) : String :=
  "metadata_corrupted_" ++ sanitizeTimestamp ts ++ ".json"

/-- `backupCorruptedMetadata()`: best-effort `fs.copyFile` of the unreadable
backing file to the quarantine name; any failure is logged and swallowed. -/
def backupCorruptedMetadata (w : World) (ts : String) : World :=
  if w.copyFails then w
  else
    match w.metaFile with
    | some c => { w with quarantine := (corruptedBackupName ts, c) :: w.quarantine }
    | none => w

/-- `loadMetadata()`: read and parse the backing file.  Absent file: persist
the current (bootstrap) record.  Corrupt file: quarantine copy, then persist
the bootstrap record.  Parseable file: merge the loaded fields over the
defaults.  A persist failure inside the recovery paths propagates. -/
def loadMetadata (w : World) (m0 : Metadata) (ts : String) : StepResult Unit :=
  match w.metaFile with
  | some (MetaFileContent.doc d) =>
      ⟨mergeDefaults m0 d, w, Except.ok ()⟩
  | none =>
      match saveMetadata w m0 with
      | Except.ok w' => ⟨m0, w', Except.ok ()⟩
      | Except.error e => ⟨m0, w, Except.error e⟩
  | some (MetaFileContent.corrupt _) =>
      let w1 := backupCorruptedMetadata w ts
      match saveMetadata w1 m0 with
      | Except.ok w' => ⟨m0, w', Except.ok ()⟩
      | Except.error e => ⟨m0, w1, Except.error e⟩

/-- The caller-supplied `saveInfo` object; absent fields are `undefined`. -/
structure SaveInfo where
  size : Option Nat := none
  gameVersion : Option String := none
  playerLevel : Option Nat := none
deriving Repr, DecidableEq

/-- JS `x || y` on an optional number: `undefined` and `0` are falsy. -/
def jsOrNat (x : Option Nat) (y : Nat) : Nat :=
  match x with
  | some s => if s = 0 then y else s
  | none => y

/-- JS `x || y` on an optional string: `undefined` and `""` are falsy. -/
def jsOrStr (x : Option String) (y : String) : String :=
  match x with
  | some s => if s = "" then y else s
  | none => y

/-- `Math.round(a / n)` for naturals: round half up. -/
def jsRound (a n : Nat) : Nat := (2 * a + n) / (2 * n)

/-- `updateStatistics()`: recompute `averageSaveSize` and `totalDiskUsage`
from the current `saves` values; zero both when there are no entries. -/
def updateStatistics (m : Metadata) : Metadata :=
  let saveFiles := m.saves.map Prod.snd
  if saveFiles.length > 0 then
    let totalSize := saveFiles.foldl (fun s f => s + f.size) 0
    { m with statistics := { m.statistics with
        averageSaveSize := jsRound totalSize saveFiles.length
        totalDiskUsage := totalSize } }
  else
    { m with statistics := { m.statistics with
        averageSaveSize := 0
        totalDiskUsage := 0 } }

/-- The FileEntry object literal that `registerSaveFile` stores at
`metadata.saves[filename]`. -/
def builtEntry (hash : List Nat → String) (m : Metadata) (f : String)
    (info : SaveInfo) (now : Nat) (content : List Nat) : SaveEntry :=
  { filename := f
    checksum := hash content
    size := jsOrNat info.size content.length
    created := now
    lastModified := now
    lastAccessed := none
    isBackup := strIncludes f "backup_"
    saveCount := (match alookup m.saves f with
      | some e => e.saveCount
      | none => 0) + 1
    gameVersion := jsOrStr info.gameVersion "unknown"
    playerLevel := (info.playerLevel).getD 0 }

/-- The in-memory record after the mutation statements of `registerSaveFile`
(entry upsert and global counter bumps), before `updateStatistics`. -/
def registerMutated (hash : List Nat → String) (m : Metadata) (f : String)
    (info : SaveInfo) (now : Nat) (content : List Nat) : Metadata :=
  { m with
    saves := aset m.saves f (builtEntry hash m f info now content)
    lastSave := some now
    totalSaves := m.totalSaves + 1
    statistics := { m.statistics with
      totalSaveOperations := m.statistics.totalSaveOperations + 1
      lastSuccessfulSave := some now } }

/-- `registerSaveFile(filename, saveInfo)` at timestamp `now`, with digest
function `hash`.  Reads the file, builds the entry, bumps the global
counters, recomputes statistics, persists.  A read failure throws before any
mutation; a persist failure throws after the in-memory mutations. -/
def registerSaveFile (hash : List Nat → String) (w : World) (m : Metadata)
    (filename : String) (info : SaveInfo) (now : Nat) : StepResult SaveEntry :=
  match alookup w.saveFiles filename with
  | none =>
      ⟨m, w, Except.error ("Failed to register save file " ++ filename ++ ": " ++ enoentMsg)⟩
  | some content =>
      let m2 := updateStatistics (registerMutated hash m filename info now content)
      match saveMetadata w m2 with
      | Except.ok w' => ⟨m2, w', Except.ok (builtEntry hash m filename info now content)⟩
      | Except.error e =>
          ⟨m2, w, Except.error ("Failed to register save file " ++ filename ++ ": " ++ e)⟩

/-- Result object of `validateSaveFileIntegrity`; fields absent from a given
return path are `none`. -/
structure ValidationResult where
  valid : Bool
  filename : String
  reason : String
  storedChecksum : Option String
  currentChecksum : Option String
  fileSize : Option Nat
  lastModified : Option Nat
deriving Repr, DecidableEq

/-- `validateSaveFileIntegrity(filename)`: `fs.access` first (a missing file
is caught and reported as a validation error), then the entry lookup
(untracked verdict), then digest comparison. -/
def validateSaveFileIntegrity (hash : List Nat → String) (w : World) (m : Metadata)
    (filename : String) : ValidationResult :=
  match alookup w.saveFiles filename with
  | none =>
      { valid := false
        filename := filename
        reason := "Validation error: " ++ enoentMsg
        storedChecksum := none
        currentChecksum := none
        fileSize := none
        lastModified := none }
  | some content =>
      match alookup m.saves filename with
      | none =>
          { valid := false
            filename := filename
            reason := "No metadata found for file"
            storedChecksum := none
            currentChecksum := none
            fileSize := none
            lastModified := none }
      | some stored =>
          let currentChecksum := hash content
          let isValid : Bool := currentChecksum = stored.checksum
          { valid := isValid
            filename := filename
            reason := if isValid then "File integrity verified"
              else "Checksum mismatch - file may be corrupted"
            storedChecksum := some stored.checksum
            currentChecksum := some currentChecksum
            fileSize := some content.length
            lastModified := some stored.lastModified }

/-- Aggregate result of `validateAllSaveFiles`. -/
structure AllValidationResults where
  totalFiles : Nat
  validFiles : Nat
  invalidFiles : Nat
  missingFiles : Nat
  details : List ValidationResult
deriving Repr, DecidableEq

/-- One iteration of the `for` loop in `validateAllSaveFiles`: validate one
filename and update the running counters.  A file counts as missing when its
failure reason contains `ENOENT` or `not found`. -/
def validateStep (hash : List Nat → String) (w : World) (m : Metadata)
    (r : AllValidationResults) (filename : String) : AllValidationResults :=
  let v := validateSaveFileIntegrity hash w m filename
  { r with
    details := r.details ++ [v]
    totalFiles := r.totalFiles + 1
    validFiles := if v.valid then r.validFiles + 1 else r.validFiles
    invalidFiles := if v.valid then r.invalidFiles else r.invalidFiles + 1
    missingFiles :=
      if v.valid then r.missingFiles
      else if strIncludes v.reason "ENOENT" || strIncludes v.reason "not found" then
        r.missingFiles + 1
      else r.missingFiles }

/-- `validateAllSaveFiles()`: fold the loop body over `Object.keys(saves)`.
`validateSaveFileIntegrity` never throws, so the loop always covers every
tracked filename. -/
def validateAllSaveFiles (hash : List Nat → String) (w : World) (m : Metadata) :
    AllValidationResults :=
  (m.saves.map Prod.fst).foldl (validateStep hash w m)
    { totalFiles := 0, validFiles := 0, invalidFiles := 0, missingFiles := 0, details := [] }

/-- The in-memory record after the mutation statements of
`recordLoadOperation`: `lastAccessed` stamped when the entry exists, load
counters bumped. -/
def recordLoadMutated (m : Metadata) (f : String) (now : Nat) : Metadata :=
  let m1 : Metadata :=
    match alookup m.saves f with
    | some e => { m with saves := aset m.saves f { e with lastAccessed := some now } }
    | none => m
  { m1 with statistics := { m1.statistics with
      totalLoadOperations := m1.statistics.totalLoadOperations + 1
      lastSuccessfulLoad := some now } }

/-- `recordLoadOperation(filename)` at timestamp `now`: stamp `lastAccessed`
when the entry exists, bump the load counters, persist; a persist failure is
logged and swallowed (the call still returns normally). -/
def recordLoadOperation (w : World) (m : Metadata) (filename : String) (now : Nat) :
    StepResult Unit :=
  match saveMetadata w (recordLoadMutated m filename now) with
  | Except.ok w' => ⟨recordLoadMutated m filename now, w', Except.ok ()⟩
  | Except.error _ => ⟨recordLoadMutated m filename now, w, Except.ok ()⟩

/-- `unregisterSaveFile(filename)`: delete the key when present, then persist;
the whole body is wrapped in a catch that logs and swallows any failure, so a
persist failure is not surfaced and the deletion stays in memory. -/
def unregisterSaveFile (w : World) (m : Metadata) (filename : String) : StepResult Unit :=
  match alookup m.saves filename with
  | some _ =>
      let m1 : Metadata := { m with saves := aerase m.saves filename }
      match saveMetadata w m1 with
      | Except.ok w' => ⟨m1, w', Except.ok ()⟩
      | Except.error _ => ⟨m1, w, Except.ok ()⟩
  | none => ⟨m, w, Except.ok ()⟩

/-- The caller-supplied partial configuration object. -/
structure ConfigUpdate where
  autoSaveEnabled : Option Bool := none
  autoSaveInterval : Option Nat := none
  backupCount : Option Nat := none
  migrationCompleted : Option Bool := none
deriving Repr, DecidableEq

/-- The in-memory record after applying the defined fields of the partial
configuration object. -/
def configMutated (m : Metadata) (cfg : ConfigUpdate) : Metadata :=
  { m with
    autoSaveEnabled := cfg.autoSaveEnabled.getD m.autoSaveEnabled
    autoSaveInterval := cfg.autoSaveInterval.getD m.autoSaveInterval
    backupCount := cfg.backupCount.getD m.backupCount
    migrationCompleted := cfg.migrationCompleted.getD m.migrationCompleted }

/-- `updateConfiguration(config)`: apply exactly the fields that are not
`undefined`, then persist; a persist failure throws after the in-memory
mutation. -/
def updateConfiguration (w : World) (m : Metadata) (cfg : ConfigUpdate) : StepResult Unit :=
  match saveMetadata w (configMutated m cfg) with
  | Except.ok w' => ⟨configMutated m cfg, w', Except.ok ()⟩
  | Except.error e => ⟨configMutated m cfg, w, Except.error ("Failed to update configuration: " ++ e)⟩

/-- `cleanupOrphanedMetadata()`: list the directory, delete every tracked
entry whose filename is not present, and when at least one was deleted
recompute statistics and persist once.  Any failure (readdir or persist) is
caught, logged and turned into a returned count of `0`; deletions that
already happened stay in memory. -/
def cleanupOrphanedMetadata (w : World) (m : Metadata) : StepResult Nat :=
  if w.readdirFails then ⟨m, w, Except.ok 0⟩
  else
    let existing := existingFiles w
    let tracked := m.saves.map Prod.fst
    let cleaned := (tracked.filter (fun f => !(existing.contains f))).length
    let m1 : Metadata := { m with saves := m.saves.filter (fun kv => existing.contains kv.fst) }
    if cleaned > 0 then
      let m2 := updateStatistics m1
      match saveMetadata w m2 with
      | Except.ok w' => ⟨m2, w', Except.ok cleaned⟩
      | Except.error _ => ⟨m2, w, Except.ok 0⟩
    else ⟨m1, w, Except.ok cleaned⟩

/-- One call to a mutating method of the manager, with its environment inputs
(timestamps, caller arguments). -/
inductive Op where
  | register (filename : String) (info : SaveInfo) (now : Nat)
  | unregister (filename : String)
  | recordLoad (filename : String) (now : Nat)
  | updateConfig (cfg : ConfigUpdate)
  | cleanup
deriving Repr, DecidableEq

/-- Apply one mutating method to the pair of in-memory record and world,
keeping whatever state the method leaves behind whether it throws or not. -/
def applyOp (hash : List Nat → String) (o : Op) (s : Metadata × World) : Metadata × World :=
  match o with
  | Op.register f info now =>
      let r := registerSaveFile hash s.2 s.1 f info now
      (r.newMeta, r.newWorld)
  | Op.unregister f =>
      let r := unregisterSaveFile s.2 s.1 f
      (r.newMeta, r.newWorld)
  | Op.recordLoad f now =>
      let r := recordLoadOperation s.2 s.1 f now
      (r.newMeta, r.newWorld)
  | Op.updateConfig cfg =>
      let r := updateConfiguration s.2 s.1 cfg
      (r.newMeta, r.newWorld)
  | Op.cleanup =>
      let r := cleanupOrphanedMetadata s.2 s.1
      (r.newMeta, r.newWorld)

/-- Run a sequence of mutating methods from a start state. -/
def runOps (hash : List Nat → String) (ops : List Op) (s : Metadata × World) :
    Metadata × World :=
  ops.foldl (fun s o => applyOp hash o s) s

/-- Sum of the `size` fields of the current entries, as `updateStatistics`
computes it. -/
def sumSizes (saves : List (String × SaveEntry)) : Nat :=
  (saves.map Prod.snd).foldl (fun s f => s + f.size) 0

/-- The statistics aggregate is consistent with the current entries: total
disk usage is the sum of sizes and the average is the rounded mean (zero when
there are no entries). -/
def statsConsistent (m : Metadata) : Prop :=
  m.statistics.totalDiskUsage = sumSizes m.saves ∧
  m.statistics.averageSaveSize =
    (if m.saves.length = 0 then 0 else jsRound (sumSizes m.saves) m.saves.length)

theorem alookup_aset_self {α : Type} (l : List (String × α)) (f : String) (e : α) :
    alookup (aset l f e) f = some e := by
  induction l with
  | nil => simp [aset, alookup]
  | cons kv rest ih =>
    obtain ⟨k, v⟩ := kv
    by_cases hk : k = f
    · simp [aset, alookup, hk]
    · simp [aset, alookup, hk, ih]

theorem alookup_aset_ne {α : Type} (l : List (String × α)) (f g : String) (e : α)
    (h : g ≠ f) : alookup (aset l f e) g = alookup l g := by
  have hfg : ¬ f = g := fun hh => h hh.symm
  induction l with
  | nil => simp [aset, alookup, hfg]
  | cons kv rest ih =>
    obtain ⟨k, v⟩ := kv
    by_cases hk : k = f
    · subst hk
      simp [aset, alookup, hfg]
    · by_cases hg : k = g
      · simp [aset, alookup, hk, hg, hfg, h]
      · simp [aset, alookup, hk, hg, ih]

theorem mem_aset {α : Type} {l : List (String × α)} {f : String} {e : α}
    {x : String × α} (h : x ∈ aset l f e) : x = (f, e) ∨ x ∈ l := by
  induction l with
  | nil => simpa [aset] using h
  | cons kv rest ih =>
    obtain ⟨k, v⟩ := kv
    by_cases hk : k = f
    · subst hk
      rcases (by simpa [aset] using h : x = (k, e) ∨ x ∈ rest) with h1 | h1
      · exact Or.inl h1
      · exact Or.inr (List.mem_cons_of_mem _ h1)
    · rcases (by simpa [aset, hk] using h : x = (k, v) ∨ x ∈ aset rest f e) with h1 | h1
      · exact Or.inr (by simp [h1])
      · rcases ih h1 with h2 | h2
        · exact Or.inl h2
        · exact Or.inr (List.mem_cons_of_mem _ h2)

theorem mem_aerase {α : Type} {l : List (String × α)} {f : String}
    {x : String × α} (h : x ∈ aerase l f) : x ∈ l := by
  induction l with
  | nil => exact absurd h (by simp [aerase])
  | cons kv rest ih =>
    obtain ⟨k, v⟩ := kv
    by_cases hk : k = f
    · exact List.mem_cons_of_mem _ (by simpa [aerase, hk] using h)
    · rcases (by simpa [aerase, hk] using h : x = (k, v) ∨ x ∈ aerase rest f) with h1 | h1
      · simp [h1]
      · exact List.mem_cons_of_mem _ (ih h1)

theorem alookup_mem {α : Type} {l : List (String × α)} {f : String} {e : α}
    (h : alookup l f = some e) : (f, e) ∈ l := by
  induction l with
  | nil => simp [alookup] at h
  | cons kv rest ih =>
    obtain ⟨k, v⟩ := kv
    by_cases hk : k = f
    · subst hk
      simp [alookup] at h
      simp [h]
    · exact List.mem_cons_of_mem _ (ih (by simpa [alookup, hk] using h))

theorem aerase_length {α : Type} {l : List (String × α)} {f : String} {e : α}
    (h : alookup l f = some e) : (aerase l f).length + 1 = l.length := by
  induction l with
  | nil => simp [alookup] at h
  | cons kv rest ih =>
    obtain ⟨k, v⟩ := kv
    by_cases hk : k = f
    · simp [aerase, hk]
    · simp only [aerase, hk, if_false, List.length_cons]
      rw [← ih (by simpa [alookup, hk] using h)]

theorem alookup_eq_none_of_not_mem_keys {α : Type} {l : List (String × α)} {f : String}
    (h : f ∉ l.map Prod.fst) : alookup l f = none := by
  induction l with
  | nil => rfl
  | cons kv rest ih =>
    obtain ⟨k, v⟩ := kv
    simp only [List.map_cons, List.mem_cons, not_or] at h
    have hkf : ¬ k = f := fun hh => h.1 hh.symm
    simp [alookup, hkf, ih h.2]

theorem alookup_aerase_ne {α : Type} (l : List (String × α)) (f g : String)
    (h : g ≠ f) : alookup (aerase l f) g = alookup l g := by
  induction l with
  | nil => rfl
  | cons kv rest ih =>
    obtain ⟨k, v⟩ := kv
    have hfg : ¬ f = g := fun hh => h hh.symm
    by_cases hk : k = f
    · subst hk
      simp [aerase, alookup, hfg]
    · by_cases hg : k = g
      · simp [aerase, alookup, hk, hg, hfg, h]
      · simp [aerase, alookup, hk, hg, ih]

theorem alookup_aerase_self {α : Type} {l : List (String × α)}
    (h : (l.map Prod.fst).Nodup) (f : String) : alookup (aerase l f) f = none := by
  induction l with
  | nil => rfl
  | cons kv rest ih =>
    obtain ⟨k, v⟩ := kv
    simp only [List.map_cons, List.nodup_cons] at h
    by_cases hk : k = f
    · subst hk
      simpa [aerase] using alookup_eq_none_of_not_mem_keys h.1
    · simp [aerase, alookup, hk, ih h.2]

theorem alookup_filter {α : Type} (l : List (String × α)) (p : String → Bool)
    (g : String) :
    alookup (l.filter (fun kv => p kv.fst)) g =
      (if p g then alookup l g else none) := by
  induction l with
  | nil => simp [alookup]
  | cons kv rest ih =>
    obtain ⟨k, v⟩ := kv
    by_cases hg : k = g
    · subst hg
      by_cases hp : p k
      · simp [List.filter_cons, hp, alookup, ih]
      · simp [List.filter_cons, hp, alookup, ih]
    · by_cases hp : p k
      · simp [List.filter_cons, hp, alookup, hg, ih]
      · simp [List.filter_cons, hp, alookup, hg, ih]

theorem updateStatistics_saves (m : Metadata) : (updateStatistics m).saves = m.saves := by
  unfold updateStatistics
  dsimp only
  split <;> rfl

theorem statsConsistent_updateStatistics (m : Metadata) :
    statsConsistent (updateStatistics m) := by
  by_cases h : m.saves = []
  · constructor <;> simp [updateStatistics, h, sumSizes]
  · have hlen : m.saves.length ≠ 0 := fun hl => h (List.eq_nil_of_length_eq_zero hl)
    have hq : 0 < m.saves.length := Nat.pos_of_ne_zero hlen
    unfold statsConsistent
    constructor
    · simp [updateStatistics, hq, sumSizes]
    · simp [updateStatistics, hq, sumSizes, hlen]

/-- A constant digest function used by the concrete scenarios. -/
def constHash : List Nat → String := fun _ => "h"

/-- A failure-free world holding one three-byte save file. -/
def wOneFile : World :=
  { saveFiles := [("save1.json", [1, 2, 3])]
    metaFile := none
    quarantine := []
    writeFails := false
    copyFails := false
    readdirFails := false
    persistCount := 0 }

/-- State after registering the one save file from the bootstrap record. -/
def c1Registered : StepResult SaveEntry :=
  registerSaveFile constHash wOneFile defaultMetadata "save1.json" {} 5

/-- In-memory record after then unregistering that same file. -/
def c1AfterUnregister : Metadata :=
  (unregisterSaveFile c1Registered.newWorld c1Registered.newMeta "save1.json").newMeta

/-- C1: counterexample.  Register `save1.json` (3 bytes) from the bootstrap
record, then unregister it: the entries mapping is empty, yet
`statistics.totalDiskUsage` still holds 3, which is not the sum of the
current entries' sizes (0).  `unregisterSaveFile` never recomputes the
statistics aggregate, so after an unregister readers do observe a stale
aggregate, contrary to the claim. -/
theorem C1_statistics_counterexample :
    c1AfterUnregister.saves = [] ∧
    c1AfterUnregister.statistics.totalDiskUsage = 3 ∧
    c1AfterUnregister.statistics.totalDiskUsage ≠ sumSizes c1AfterUnregister.saves := by
  refine ⟨rfl, rfl, ?_⟩
  decide

/-- C1 (amended): after every registerSaveFile call that can read its target
file, the statistics aggregate is recomputed inline and is consistent with the
current entries (`totalDiskUsage` is the sum of entry sizes and
`averageSaveSize` is the rounded mean, 0 when empty) — this holds whether or
not the subsequent persist succeeds.  `unregisterSaveFile`, however, does not
recompute the aggregate: it leaves the `statistics` object exactly as it was,
so the aggregate is stale after an unregister until the next register or
cleanup recomputes it. -/
theorem C1_statistics_amended (hash : List Nat → String) (w : World) (m : Metadata)
    (f : String) (info : SaveInfo) (now : Nat) (content : List Nat)
    (hread : alookup w.saveFiles f = some content) :
    statsConsistent (registerSaveFile hash w m f info now).newMeta ∧
    (unregisterSaveFile w m f).newMeta.statistics = m.statistics := by
  constructor
  · unfold registerSaveFile
    rw [hread]
    dsimp only
    rcases hsv : saveMetadata w _ with e | w'
    · simpa [hsv] using statsConsistent_updateStatistics _
    · simpa [hsv] using statsConsistent_updateStatistics _
  · unfold unregisterSaveFile
    rcases hl : alookup m.saves f with _ | e
    · rfl
    · dsimp only
      rcases hsv : saveMetadata w _ with e' | w' <;> simp [hsv]

/-- Witness for the amended C1 at a concrete input. -/
theorem C1_statistics_amended_witness :
    statsConsistent (registerSaveFile constHash wOneFile defaultMetadata "save1.json" {} 5).newMeta ∧
    (unregisterSaveFile wOneFile defaultMetadata "save1.json").newMeta.statistics =
      defaultMetadata.statistics :=
  C1_statistics_amended constHash wOneFile defaultMetadata "save1.json" {} 5 [1, 2, 3] rfl

/-- A world whose writes fail, for the persistence-failure scenarios. -/
def c2World : World :=
  { saveFiles := [("save1.json", [1, 2, 3])]
    metaFile := none
    quarantine := []
    writeFails := true
    copyFails := false
    readdirFails := false
    persistCount := 0 }

/-- A record tracking that one file. -/
def c2Entry : SaveEntry :=
  { filename := "save1.json"
    checksum := "h"
    size := 3
    created := 1
    lastModified := 1
    lastAccessed := none
    isBackup := false
    saveCount := 1
    gameVersion := "unknown"
    playerLevel := 0 }

/-- Metadata with one tracked entry, used with the failing-write world. -/
def c2Meta : Metadata := { defaultMetadata with saves := [("save1.json", c2Entry)] }

/-- C2: counterexample.  Unregister a tracked file while persistence fails:
the call returns normally (`ok ()`) instead of surfacing an error, and the
in-memory record has changed (the entry is gone).  Both halves of the claim —
synchronous surfacing and unchanged in-memory state — fail for
`unregisterSaveFile`. -/
theorem C2_io_failure_counterexample :
    (unregisterSaveFile c2World c2Meta "save1.json").out = Except.ok () ∧
    (unregisterSaveFile c2World c2Meta "save1.json").newMeta ≠ c2Meta := by
  refine ⟨rfl, ?_⟩
  decide

/-- C2 (amended): when persistence fails, `saveMetadata` itself raises and
leaves the world unchanged (the previous on-disk version survives), but the
callers diverge from the claim: `registerSaveFile` and `updateConfiguration`
do surface the failure as an error, yet their in-memory mutations stay
applied (no rollback); `unregisterSaveFile` swallows the failure entirely —
it returns normally — and its in-memory deletion also stays applied. -/
theorem C2_io_failure_amended (hash : List Nat → String) (w : World) (m : Metadata)
    (f : String) (info : SaveInfo) (now : Nat) (cfg : ConfigUpdate)
    (content : List Nat) (eOld : SaveEntry)
    (hw : w.writeFails = true)
    (hread : alookup w.saveFiles f = some content)
    (htracked : alookup m.saves f = some eOld) :
    (saveMetadata w m = Except.error "Failed to save metadata: write failure") ∧
    ((registerSaveFile hash w m f info now).out =
        Except.error ("Failed to register save file " ++ f ++ ": " ++
          "Failed to save metadata: write failure") ∧
      (registerSaveFile hash w m f info now).newWorld = w ∧
      (registerSaveFile hash w m f info now).newMeta.totalSaves = m.totalSaves + 1) ∧
    ((unregisterSaveFile w m f).out = Except.ok () ∧
      (unregisterSaveFile w m f).newWorld = w ∧
      (unregisterSaveFile w m f).newMeta.saves.length + 1 = m.saves.length) ∧
    ((updateConfiguration w m cfg).out =
        Except.error ("Failed to update configuration: " ++
          "Failed to save metadata: write failure") ∧
      (updateConfiguration w m cfg).newWorld = w ∧
      (updateConfiguration w m cfg).newMeta.migrationCompleted =
        cfg.migrationCompleted.getD m.migrationCompleted) := by
  have hsv : ∀ m' : Metadata, saveMetadata w m' =
      Except.error "Failed to save metadata: write failure" := by
    intro m'
    simp [saveMetadata, hw]
  refine ⟨hsv m, ?_, ?_, ?_⟩
  · unfold registerSaveFile
    rw [hread]
    dsimp only
    rw [hsv]
    dsimp only
    refine ⟨rfl, rfl, ?_⟩
    simp only [updateStatistics]
    split <;> rfl
  · unfold unregisterSaveFile
    rw [htracked]
    dsimp only
    rw [hsv]
    dsimp only
    exact ⟨rfl, rfl, aerase_length htracked⟩
  · unfold updateConfiguration
    rw [hsv]
    dsimp only
    exact ⟨rfl, rfl, rfl⟩

/-- Witness for the amended C2 at a concrete input. -/
theorem C2_io_failure_amended_witness :
    (saveMetadata c2World c2Meta = Except.error "Failed to save metadata: write failure") ∧
    ((registerSaveFile constHash c2World c2Meta "save1.json" {} 7).out =
        Except.error ("Failed to register save file " ++ "save1.json" ++ ": " ++
          "Failed to save metadata: write failure") ∧
      (registerSaveFile constHash c2World c2Meta "save1.json" {} 7).newWorld = c2World ∧
      (registerSaveFile constHash c2World c2Meta "save1.json" {} 7).newMeta.totalSaves =
        c2Meta.totalSaves + 1) ∧
    ((unregisterSaveFile c2World c2Meta "save1.json").out = Except.ok () ∧
      (unregisterSaveFile c2World c2Meta "save1.json").newWorld = c2World ∧
      (unregisterSaveFile c2World c2Meta "save1.json").newMeta.saves.length + 1 =
        c2Meta.saves.length) ∧
    ((updateConfiguration c2World c2Meta {}).out =
        Except.error ("Failed to update configuration: " ++
          "Failed to save metadata: write failure") ∧
      (updateConfiguration c2World c2Meta {}).newWorld = c2World ∧
      (updateConfiguration c2World c2Meta {}).newMeta.migrationCompleted =
        (ConfigUpdate.migrationCompleted {}).getD c2Meta.migrationCompleted) :=
  C2_io_failure_amended constHash c2World c2Meta "save1.json" {} 7 {} [1, 2, 3] c2Entry
    rfl rfl rfl

theorem filter_of_all {α : Type} (l : List α) (p : α → Bool)
    (h : ∀ a ∈ l, p a = true) : l.filter p = l := by
  induction l with
  | nil => rfl
  | cons a rest ih =>
    have ha := h a (List.mem_cons_self a rest)
    simp [List.filter_cons, ha, ih (fun b hb => h b (List.mem_cons_of_mem a hb))]

/-- C3: counterexample.  On a state with no orphaned entries (the bootstrap
record over any directory), `cleanupOrphanedMetadata` performs no persist at
all — the world is returned untouched and the persist counter does not move —
whereas the claim requires that reconcile persists exactly once on every
state.  (The code persists only when `cleanedCount > 0`, and each removal is
an inline `delete`, not a call to `unregisterSaveFile`.) -/
theorem C3_reconcile_counterexample :
    (cleanupOrphanedMetadata wOneFile defaultMetadata).out = Except.ok 0 ∧
    (cleanupOrphanedMetadata wOneFile defaultMetadata).newWorld = wOneFile ∧
    wOneFile.persistCount = 0 :=
  ⟨rfl, rfl, rfl⟩

/-- C3 (amended): with a readable directory and working persistence,
reconcile removes exactly the tracked entries whose filename is absent from
the directory listing (deleting them inline, in one batch, rather than
through `unregisterSaveFile`), returns that count, never adds an entry for an
untracked file, recomputes statistics and persists exactly once when at least
one entry was removed, and persists zero times (leaving record and world
untouched) when nothing was orphaned. -/
theorem C3_reconcile_amended (w : World) (m : Metadata)
    (hr : w.readdirFails = false) (hw : w.writeFails = false) :
    (∀ g, alookup (cleanupOrphanedMetadata w m).newMeta.saves g =
        (if (existingFiles w).contains g then alookup m.saves g else none)) ∧
    (cleanupOrphanedMetadata w m).out = Except.ok
        (((m.saves.map Prod.fst).filter (fun f => !((existingFiles w).contains f))).length) ∧
    (cleanupOrphanedMetadata w m).newWorld.persistCount =
      w.persistCount +
        (if 0 < ((m.saves.map Prod.fst).filter
            (fun f => !((existingFiles w).contains f))).length then 1 else 0) ∧
    (((m.saves.map Prod.fst).filter (fun f => !((existingFiles w).contains f))).length = 0 →
      (cleanupOrphanedMetadata w m).newMeta = m ∧
      (cleanupOrphanedMetadata w m).newWorld = w) ∧
    (0 < ((m.saves.map Prod.fst).filter (fun f => !((existingFiles w).contains f))).length →
      statsConsistent (cleanupOrphanedMetadata w m).newMeta) := by
  unfold cleanupOrphanedMetadata
  rw [hr]
  simp only [Bool.false_eq_true, if_false]
  by_cases hcl :
      0 < ((m.saves.map Prod.fst).filter (fun f => !((existingFiles w).contains f))).length
  · rw [if_pos hcl]
    simp only [saveMetadata, hw, Bool.false_eq_true, if_false]
    refine ⟨?_, by trivial, ?_, ?_, ?_⟩
    · intro g
      rw [updateStatistics_saves]
      exact alookup_filter m.saves (fun s => (existingFiles w).contains s) g
    · rw [if_pos hcl]
    · intro h0
      omega
    · intro _
      exact statsConsistent_updateStatistics _
  · rw [if_neg hcl]
    have h0 : ((m.saves.map Prod.fst).filter
        (fun f => !((existingFiles w).contains f))).length = 0 := by omega
    have hall : ∀ kv ∈ m.saves, ((existingFiles w).contains kv.fst) = true := by
      intro kv hkv
      by_contra hcon
      have hq : (!((existingFiles w).contains kv.fst)) = true := by
        simp [Bool.not_eq_true] at hcon ⊢
        exact hcon
      have hmemk : kv.fst ∈ m.saves.map Prod.fst := List.mem_map_of_mem Prod.fst hkv
      have hmemf : kv.fst ∈ (m.saves.map Prod.fst).filter
          (fun f => !((existingFiles w).contains f)) :=
        List.mem_filter.mpr ⟨hmemk, hq⟩
      have := List.length_pos.mpr (List.ne_nil_of_mem hmemf)
      omega
    have hfix : m.saves.filter (fun kv => (existingFiles w).contains kv.fst) = m.saves :=
      filter_of_all m.saves _ hall
    refine ⟨?_, rfl, ?_, ?_, ?_⟩
    · intro g
      exact alookup_filter m.saves (fun s => (existingFiles w).contains s) g
    · rw [if_neg hcl]
      rfl
    · intro _
      constructor
      · show { m with saves := m.saves.filter (fun kv => (existingFiles w).contains kv.fst) } = m
        rw [hfix]
      · rfl
    · intro hpos
      omega

/-- A world containing no save files, so any tracked entry is orphaned. -/
def c3World : World :=
  { saveFiles := []
    metaFile := none
    quarantine := []
    writeFails := false
    copyFails := false
    readdirFails := false
    persistCount := 0 }

/-- Witness for the amended C3 at a concrete input with one orphan. -/
theorem C3_reconcile_amended_witness :
    alookup (cleanupOrphanedMetadata c3World c2Meta).newMeta.saves "save1.json" =
      (if (existingFiles c3World).contains "save1.json" then
        alookup c2Meta.saves "save1.json" else none) ∧
    (cleanupOrphanedMetadata c3World c2Meta).out = Except.ok
      (((c2Meta.saves.map Prod.fst).filter
        (fun f => !((existingFiles c3World).contains f))).length) :=
  ⟨(C3_reconcile_amended c3World c2Meta rfl rfl).1 "save1.json",
   (C3_reconcile_amended c3World c2Meta rfl rfl).2.1⟩

/-- C4: the round trip.  If `saveMetadata` succeeds, producing on-disk state
w', then a fresh `loadMetadata` over w' (from any constructor defaults)
succeeds, leaves the disk untouched, and yields an in-memory record equal to
the record that was persisted: the serialized document carries every field,
so the merge-over-defaults returns exactly the persisted record. -/
theorem C4_persist_load_roundtrip (m m0 : Metadata) (w w' : World) (ts : String)
    (hs : saveMetadata w m = Except.ok w') :
    (loadMetadata w' m0 ts).newMeta = m ∧
    (loadMetadata w' m0 ts).out = Except.ok () ∧
    (loadMetadata w' m0 ts).newWorld = w' := by
  unfold saveMetadata at hs
  by_cases hw : w.writeFails
  · simp [hw] at hs
  · simp only [hw, if_neg, Bool.false_eq_true, if_false] at hs
    have hs' := (Except.ok.injEq _ _).mp hs
    rw [← hs']
    exact ⟨rfl, rfl, rfl⟩

/-- Witness for C4 at a concrete record and world. -/
theorem C4_persist_load_roundtrip_witness :
    (loadMetadata
      { wOneFile with
        metaFile := some (MetaFileContent.doc (toDoc c2Meta))
        persistCount := 1 } defaultMetadata "t").newMeta = c2Meta :=
  (C4_persist_load_roundtrip c2Meta defaultMetadata wOneFile
    { wOneFile with
      metaFile := some (MetaFileContent.doc (toDoc c2Meta))
      persistCount := 1 } "t" rfl).1

/-- C5: corrupt backing file.  When the metadata file holds unparseable
content and writes work, `loadMetadata` succeeds (no error), leaves the
bootstrap record in memory, persists the bootstrap record over the backing
slot, and — unless the best-effort copy fails — a quarantine copy of the
corrupt content exists under the name
`metadata_corrupted_<sanitized timestamp>.json` in the same directory.  A
copy failure only loses the quarantine file, never the load. -/
theorem C5_corrupt_quarantine (w : World) (raw ts : String)
    (hc : w.metaFile = some (MetaFileContent.corrupt raw))
    (hw : w.writeFails = false) :
    (loadMetadata w defaultMetadata ts).out = Except.ok () ∧
    (loadMetadata w defaultMetadata ts).newMeta = defaultMetadata ∧
    (loadMetadata w defaultMetadata ts).newWorld.metaFile =
      some (MetaFileContent.doc (toDoc defaultMetadata)) ∧
    (w.copyFails = false →
      (corruptedBackupName ts, MetaFileContent.corrupt raw) ∈
        (loadMetadata w defaultMetadata ts).newWorld.quarantine) ∧
    corruptedBackupName ts = "metadata_corrupted_" ++ sanitizeTimestamp ts ++ ".json" := by
  unfold loadMetadata
  rw [hc]
  cases hcp : w.copyFails with
  | true =>
    simp [backupCorruptedMetadata, hcp, saveMetadata, hw, corruptedBackupName]
  | false =>
    simp [backupCorruptedMetadata, hcp, hc, saveMetadata, hw, corruptedBackupName]

/-- A world whose backing metadata file is corrupt. -/
def c5World : World :=
  { saveFiles := []
    metaFile := some (MetaFileContent.corrupt "not json")
    quarantine := []
    writeFails := false
    copyFails := false
    readdirFails := false
    persistCount := 0 }

/-- Witness for C5 at a concrete corrupt world and timestamp. -/
theorem C5_corrupt_quarantine_witness :
    (loadMetadata c5World defaultMetadata "2026-01-01T00:00:00.000Z").out = Except.ok () ∧
    (loadMetadata c5World defaultMetadata "2026-01-01T00:00:00.000Z").newMeta =
      defaultMetadata :=
  ⟨(C5_corrupt_quarantine c5World "not json" "2026-01-01T00:00:00.000Z" rfl rfl).1,
   (C5_corrupt_quarantine c5World "not json" "2026-01-01T00:00:00.000Z" rfl rfl).2.1⟩

/-- Validation result for a filename that is neither tracked nor on disk. -/
def c6Result : ValidationResult :=
  validateSaveFileIntegrity constHash c3World defaultMetadata "ghost.sav"

/-- C6: counterexample.  For a filename with no entry that is also absent
from disk, the code checks `fs.access` before looking the entry up, so the
caught ENOENT produces the missing-file verdict ("Validation error: ...")
rather than the untracked verdict ("No metadata found for file") the claim
requires whenever no entry exists. -/
theorem C6_validateOne_counterexample :
    alookup defaultMetadata.saves "ghost.sav" = none ∧
    c6Result.reason = "Validation error: " ++ enoentMsg ∧
    c6Result.reason ≠ "No metadata found for file" := by
  refine ⟨rfl, rfl, ?_⟩
  decide

/-- C6 (amended): the missing-file check runs first, so a file absent from
disk always gets the missing verdict (a "Validation error" mentioning ENOENT,
distinct from both the mismatch and untracked reasons), even when it is also
untracked; the untracked verdict is reported exactly when no entry exists
but the file is present on disk; otherwise the result is valid precisely when
the recomputed digest equals the stored checksum, and the result always
carries both the stored and the current checksum, with the mismatch reason on
failure. -/
theorem C6_validateOne_amended (hash : List Nat → String) (w : World) (m : Metadata)
    (f : String) :
    (alookup w.saveFiles f = none →
      (validateSaveFileIntegrity hash w m f).valid = false ∧
      (validateSaveFileIntegrity hash w m f).reason = "Validation error: " ++ enoentMsg) ∧
    (∀ content, alookup w.saveFiles f = some content → alookup m.saves f = none →
      (validateSaveFileIntegrity hash w m f).valid = false ∧
      (validateSaveFileIntegrity hash w m f).reason = "No metadata found for file") ∧
    (∀ content e, alookup w.saveFiles f = some content → alookup m.saves f = some e →
      ((validateSaveFileIntegrity hash w m f).valid = true ↔ hash content = e.checksum) ∧
      (validateSaveFileIntegrity hash w m f).storedChecksum = some e.checksum ∧
      (validateSaveFileIntegrity hash w m f).currentChecksum = some (hash content) ∧
      ((validateSaveFileIntegrity hash w m f).valid = false →
        (validateSaveFileIntegrity hash w m f).reason =
          "Checksum mismatch - file may be corrupted")) ∧
    ("Validation error: " ++ enoentMsg ≠ "Checksum mismatch - file may be corrupted" ∧
      "Validation error: " ++ enoentMsg ≠ "No metadata found for file") := by
  refine ⟨?_, ?_, ?_, by decide, by decide⟩
  · intro hmiss
    unfold validateSaveFileIntegrity
    rw [hmiss]
    exact ⟨rfl, rfl⟩
  · intro content hread huntracked
    unfold validateSaveFileIntegrity
    rw [hread, huntracked]
    exact ⟨rfl, rfl⟩
  · intro content e hread htracked
    unfold validateSaveFileIntegrity
    rw [hread, htracked]
    dsimp only
    refine ⟨?_, rfl, rfl, ?_⟩
    · constructor
      · intro hv
        exact of_decide_eq_true hv
      · intro hv
        exact decide_eq_true hv
    · intro hv
      rw [hv]
      rfl

/-- Witness for the amended C6 on a present, tracked file with matching
checksum. -/
theorem C6_validateOne_amended_witness :
    (validateSaveFileIntegrity constHash wOneFile c2Meta "save1.json").valid = true ↔
      constHash [1, 2, 3] = c2Entry.checksum :=
  ((C6_validateOne_amended constHash wOneFile c2Meta "save1.json").2.2.1
    [1, 2, 3] c2Entry rfl rfl).1

/-- One validation counts as missing in `validateAllSaveFiles` when its
reason mentions ENOENT or "not found". -/
def countsMissing (v : ValidationResult) : Bool :=
  strIncludes v.reason "ENOENT" || strIncludes v.reason "not found"

theorem validateStep_totalFiles (hash : List Nat → String) (w : World) (m : Metadata)
    (r : AllValidationResults) (k : String) :
    (validateStep hash w m r k).totalFiles = r.totalFiles + 1 := rfl

theorem validateStep_detailsLength (hash : List Nat → String) (w : World) (m : Metadata)
    (r : AllValidationResults) (k : String) :
    (validateStep hash w m r k).details.length = r.details.length + 1 := by
  unfold validateStep
  dsimp only
  simp [List.length_append]

theorem validateStep_validInvalid (hash : List Nat → String) (w : World) (m : Metadata)
    (r : AllValidationResults) (k : String) :
    (validateStep hash w m r k).validFiles + (validateStep hash w m r k).invalidFiles =
      r.validFiles + r.invalidFiles + 1 := by
  unfold validateStep
  dsimp only
  by_cases hv : (validateSaveFileIntegrity hash w m k).valid = true
  · rw [if_pos hv, if_pos hv]
    omega
  · rw [if_neg hv, if_neg hv]
    omega

theorem validateStep_missingInvalid (hash : List Nat → String) (w : World) (m : Metadata)
    (r : AllValidationResults) (k : String) (h : r.missingFiles ≤ r.invalidFiles) :
    (validateStep hash w m r k).missingFiles ≤ (validateStep hash w m r k).invalidFiles := by
  unfold validateStep
  dsimp only
  by_cases hv : (validateSaveFileIntegrity hash w m k).valid = true
  · rw [if_pos hv, if_pos hv]
    exact h
  · rw [if_neg hv, if_neg hv]
    by_cases hm : (strIncludes (validateSaveFileIntegrity hash w m k).reason "ENOENT" ||
        strIncludes (validateSaveFileIntegrity hash w m k).reason "not found") = true
    · rw [if_pos hm]
      omega
    · rw [if_neg hm]
      omega

theorem validateAll_fold (hash : List Nat → String) (w : World) (m : Metadata)
    (keys : List String) (r : AllValidationResults)
    (hmi : r.missingFiles ≤ r.invalidFiles) :
    (keys.foldl (validateStep hash w m) r).totalFiles = r.totalFiles + keys.length ∧
    (keys.foldl (validateStep hash w m) r).validFiles +
        (keys.foldl (validateStep hash w m) r).invalidFiles =
      r.validFiles + r.invalidFiles + keys.length ∧
    (keys.foldl (validateStep hash w m) r).details.length =
      r.details.length + keys.length ∧
    (keys.foldl (validateStep hash w m) r).missingFiles ≤
      (keys.foldl (validateStep hash w m) r).invalidFiles := by
  induction keys generalizing r with
  | nil => exact ⟨rfl, rfl, rfl, hmi⟩
  | cons k rest ih =>
    have hstep := ih (validateStep hash w m r k)
      (validateStep_missingInvalid hash w m r k hmi)
    rcases hstep with ⟨h1, h2, h3, h4⟩
    rw [List.foldl_cons]
    refine ⟨?_, ?_, ?_, h4⟩
    · rw [h1, validateStep_totalFiles]
      simp [List.length_cons]
      omega
    · rw [h2, validateStep_validInvalid]
      simp [List.length_cons]
      omega
    · rw [h3, validateStep_detailsLength]
      simp [List.length_cons]
      omega

/-- C7: `validateAllSaveFiles` checks every tracked filename without
short-circuiting — the details list has one result per tracked entry and
`totalFiles` equals the number of tracked entries — and its counters satisfy
valid + invalid = total and missing ≤ invalid (missing files are a subset of
the invalid ones). -/
theorem C7_validateAll_aggregate (hash : List Nat → String) (w : World) (m : Metadata) :
    (validateAllSaveFiles hash w m).totalFiles = m.saves.length ∧
    (validateAllSaveFiles hash w m).validFiles + (validateAllSaveFiles hash w m).invalidFiles =
      (validateAllSaveFiles hash w m).totalFiles ∧
    (validateAllSaveFiles hash w m).details.length = m.saves.length ∧
    (validateAllSaveFiles hash w m).missingFiles ≤
      (validateAllSaveFiles hash w m).invalidFiles := by
  have h := validateAll_fold hash w m (m.saves.map Prod.fst)
    { totalFiles := 0, validFiles := 0, invalidFiles := 0, missingFiles := 0, details := [] }
    (by simp)
  rcases h with ⟨h1, h2, h3, h4⟩
  unfold validateAllSaveFiles
  simp only [List.length_map] at h1 h2 h3 h4
  refine ⟨by simpa using h1, by omega, by simpa using h3, by omega⟩

theorem updateStatistics_totalSaves (m : Metadata) :
    (updateStatistics m).totalSaves = m.totalSaves := by
  unfold updateStatistics
  dsimp only
  split <;> rfl

theorem updateStatistics_totalSaveOperations (m : Metadata) :
    (updateStatistics m).statistics.totalSaveOperations =
      m.statistics.totalSaveOperations := by
  unfold updateStatistics
  dsimp only
  split <;> rfl

theorem filter_eq_nil_of_all {α : Type} (l : List α) (p : α → Bool)
    (h : ∀ a ∈ l, p a = false) : l.filter p = [] := by
  induction l with
  | nil => rfl
  | cons a rest ih =>
    have ha := h a (List.mem_cons_self a rest)
    simp [List.filter_cons, ha, ih (fun b hb => h b (List.mem_cons_of_mem a hb))]

theorem existingFiles_metaSet (w : World) (d : MetaFileContent) (n : Nat) (x : String)
    (hx : x ∈ existingFiles w) :
    x ∈ existingFiles
      { w with metaFile := some d, persistCount := n } := by
  unfold existingFiles at hx ⊢
  dsimp only at hx ⊢
  rcases List.mem_append.mp hx with h1 | h2
  · rcases List.mem_append.mp h1 with h3 | h4
    · exact List.mem_append.mpr (Or.inl (List.mem_append.mpr (Or.inl h3)))
    · have hx2 : x = metadataFileName := by
        cases hm : w.metaFile with
        | some c =>
          rw [hm] at h4
          simpa using h4
        | none =>
          rw [hm] at h4
          simp at h4
      exact List.mem_append.mpr (Or.inl (List.mem_append.mpr (Or.inr (by simp [hx2]))))
  · exact List.mem_append.mpr (Or.inr h2)

theorem cleanup_saves (w : World) (m : Metadata) (hr : w.readdirFails = false) :
    (cleanupOrphanedMetadata w m).newMeta.saves =
      m.saves.filter (fun kv => (existingFiles w).contains kv.fst) := by
  unfold cleanupOrphanedMetadata
  rw [hr]
  simp only [Bool.false_eq_true, if_false]
  by_cases hcl : 0 < ((m.saves.map Prod.fst).filter
      (fun f => !((existingFiles w).contains f))).length
  · rw [if_pos hcl]
    rcases hsv : saveMetadata w (updateStatistics
        { m with saves := m.saves.filter (fun kv => (existingFiles w).contains kv.fst) })
      with e | w'
    · exact updateStatistics_saves _
    · exact updateStatistics_saves _
  · rw [if_neg hcl]

theorem cleanup_newWorld_cases (w : World) (m : Metadata) :
    (cleanupOrphanedMetadata w m).newWorld = w ∨
    ∃ d : MetaDoc, (cleanupOrphanedMetadata w m).newWorld =
      { w with metaFile := some (MetaFileContent.doc d)
               persistCount := w.persistCount + 1 } := by
  unfold cleanupOrphanedMetadata
  by_cases hrd : w.readdirFails = true
  · rw [if_pos hrd]
    exact Or.inl rfl
  · rw [if_neg hrd]
    dsimp only
    by_cases hcl : 0 < ((m.saves.map Prod.fst).filter
        (fun f => !((existingFiles w).contains f))).length
    · rw [if_pos hcl]
      rcases hsv : saveMetadata w (updateStatistics
          { m with saves := m.saves.filter (fun kv => (existingFiles w).contains kv.fst) })
        with e | w'
      · exact Or.inl rfl
      · unfold saveMetadata at hsv
        by_cases hwf : w.writeFails = true
        · rw [if_pos hwf] at hsv
          cases hsv
        · rw [if_neg hwf] at hsv
          have h2 := (Except.ok.injEq _ _).mp hsv
          refine Or.inr ⟨toDoc (updateStatistics
            { m with saves := m.saves.filter (fun kv => (existingFiles w).contains kv.fst) }), ?_⟩
          dsimp only
          rw [← h2]
    · rw [if_neg hcl]
      exact Or.inl rfl

theorem cleanup_world_props (w : World) (m : Metadata) :
    (cleanupOrphanedMetadata w m).newWorld.readdirFails = w.readdirFails ∧
    (∀ x, x ∈ existingFiles w →
      x ∈ existingFiles (cleanupOrphanedMetadata w m).newWorld) := by
  rcases cleanup_newWorld_cases w m with h | ⟨d, h⟩
  · rw [h]
    exact ⟨rfl, fun x hx => hx⟩
  · rw [h]
    exact ⟨rfl, fun x hx => existingFiles_metaSet w (MetaFileContent.doc d) _ x hx⟩

/-- C9: reconcile is idempotent.  Run `cleanupOrphanedMetadata`, then run it
again with no change to the save files in between: every entry surviving the
first call names a file present in the listing, so the second call finds no
orphan, removes nothing, changes neither the record nor the world, and
returns 0. -/
theorem C9_reconcile_idempotent (w : World) (m : Metadata)
    (hr : w.readdirFails = false) :
    (cleanupOrphanedMetadata (cleanupOrphanedMetadata w m).newWorld
        (cleanupOrphanedMetadata w m).newMeta).out = Except.ok 0 ∧
    (cleanupOrphanedMetadata (cleanupOrphanedMetadata w m).newWorld
        (cleanupOrphanedMetadata w m).newMeta).newMeta =
      (cleanupOrphanedMetadata w m).newMeta ∧
    (cleanupOrphanedMetadata (cleanupOrphanedMetadata w m).newWorld
        (cleanupOrphanedMetadata w m).newMeta).newWorld =
      (cleanupOrphanedMetadata w m).newWorld := by
  have hsaves := cleanup_saves w m hr
  rcases cleanup_world_props w m with ⟨hrd2, hsup⟩
  set m1 := (cleanupOrphanedMetadata w m).newMeta with hm1
  set w1 := (cleanupOrphanedMetadata w m).newWorld with hw1
  have hr2 : w1.readdirFails = false := by
    rw [hrd2, hr]
  have hallkeys : ∀ g ∈ m1.saves.map Prod.fst,
      ((existingFiles w1).contains g) = true := by
    intro g hg
    rcases List.mem_map.mp hg with ⟨kv, hkv, hfst⟩
    rw [hsaves] at hkv
    have h1 := List.mem_filter.mp hkv
    have h2 : kv.fst ∈ existingFiles w := by
      simpa using h1.2
    have h3 := hsup kv.fst h2
    rw [hfst] at h3
    simpa using h3
  have hnil : (m1.saves.map Prod.fst).filter
      (fun f => !((existingFiles w1).contains f)) = [] := by
    refine filter_eq_nil_of_all _ _ ?_
    intro g hg
    rw [hallkeys g hg]
    rfl
  have hallkv : ∀ kv ∈ m1.saves, ((existingFiles w1).contains kv.fst) = true := by
    intro kv hkv
    exact hallkeys kv.fst (List.mem_map_of_mem Prod.fst hkv)
  have hfix : m1.saves.filter (fun kv => (existingFiles w1).contains kv.fst) = m1.saves :=
    filter_of_all _ _ hallkv
  unfold cleanupOrphanedMetadata
  rw [hr2]
  simp only [Bool.false_eq_true, if_false]
  rw [hnil]
  simp only [List.length_nil, Nat.lt_irrefl, if_false]
  refine ⟨by trivial, ?_, by trivial⟩
  show { m1 with
    saves := m1.saves.filter (fun kv => (existingFiles w1).contains kv.fst) } = m1
  rw [hfix]

/-- Witness for C9 at a concrete input: one tracked entry whose file was
deleted from disk. -/
theorem C9_reconcile_idempotent_witness :
    (cleanupOrphanedMetadata (cleanupOrphanedMetadata c3World c2Meta).newWorld
        (cleanupOrphanedMetadata c3World c2Meta).newMeta).out = Except.ok 0 :=
  (C9_reconcile_idempotent c3World c2Meta rfl).1

theorem register_newMeta (hash : List Nat → String) (w : World) (m : Metadata)
    (f : String) (info : SaveInfo) (now : Nat) (content : List Nat)
    (hread : alookup w.saveFiles f = some content) :
    (registerSaveFile hash w m f info now).newMeta =
      updateStatistics (registerMutated hash m f info now content) := by
  unfold registerSaveFile
  rw [hread]
  dsimp only
  rcases hsv : saveMetadata w (updateStatistics (registerMutated hash m f info now content))
    with e | w' <;> rfl

theorem register_out (hash : List Nat → String) (w : World) (m : Metadata)
    (f : String) (info : SaveInfo) (now : Nat) (content : List Nat)
    (hread : alookup w.saveFiles f = some content) (hw : w.writeFails = false) :
    (registerSaveFile hash w m f info now).out =
      Except.ok (builtEntry hash m f info now content) := by
  unfold registerSaveFile
  rw [hread]
  dsimp only
  have hsv : saveMetadata w (updateStatistics (registerMutated hash m f info now content)) =
      Except.ok { w with
        metaFile := some (MetaFileContent.doc
          (toDoc (updateStatistics (registerMutated hash m f info now content))))
        persistCount := w.persistCount + 1 } := by
    simp [saveMetadata, hw]
  rw [hsv]

theorem register_miss (hash : List Nat → String) (w : World) (m : Metadata)
    (f : String) (info : SaveInfo) (now : Nat)
    (hread : alookup w.saveFiles f = none) :
    registerSaveFile hash w m f info now =
      ⟨m, w, Except.error ("Failed to register save file " ++ f ++ ": " ++ enoentMsg)⟩ := by
  unfold registerSaveFile
  rw [hread]

theorem unregister_newMeta_tracked (w : World) (m : Metadata) (f : String) (e : SaveEntry)
    (ht : alookup m.saves f = some e) :
    (unregisterSaveFile w m f).newMeta = { m with saves := aerase m.saves f } := by
  unfold unregisterSaveFile
  rw [ht]
  dsimp only
  rcases hsv : saveMetadata w { m with saves := aerase m.saves f } with e' | w' <;> rfl

theorem unregister_newMeta_untracked (w : World) (m : Metadata) (f : String)
    (ht : alookup m.saves f = none) :
    (unregisterSaveFile w m f).newMeta = m := by
  unfold unregisterSaveFile
  rw [ht]

theorem recordLoad_newMeta (w : World) (m : Metadata) (f : String) (now : Nat) :
    (recordLoadOperation w m f now).newMeta = recordLoadMutated m f now := by
  unfold recordLoadOperation
  rcases hsv : saveMetadata w (recordLoadMutated m f now) with e | w' <;> rfl

theorem config_newMeta (w : World) (m : Metadata) (cfg : ConfigUpdate) :
    (updateConfiguration w m cfg).newMeta = configMutated m cfg := by
  unfold updateConfiguration
  rcases hsv : saveMetadata w (configMutated m cfg) with e | w' <;> rfl

theorem recordLoadMutated_saves (m : Metadata) (f : String) (now : Nat) :
    (recordLoadMutated m f now).saves =
      (match alookup m.saves f with
        | some e => aset m.saves f { e with lastAccessed := some now }
        | none => m.saves) := by
  unfold recordLoadMutated
  rcases ht : alookup m.saves f with _ | e <;> rfl

theorem recordLoadMutated_totalSaves (m : Metadata) (f : String) (now : Nat) :
    (recordLoadMutated m f now).totalSaves = m.totalSaves := by
  unfold recordLoadMutated
  rcases ht : alookup m.saves f with _ | e <;> rfl

theorem cleanup_newMeta_readdirFail (w : World) (m : Metadata)
    (hrd : w.readdirFails = true) :
    cleanupOrphanedMetadata w m = ⟨m, w, Except.ok 0⟩ := by
  unfold cleanupOrphanedMetadata
  rw [if_pos hrd]

theorem cleanup_totalSaves (w : World) (m : Metadata) :
    (cleanupOrphanedMetadata w m).newMeta.totalSaves = m.totalSaves := by
  unfold cleanupOrphanedMetadata
  by_cases hrd : w.readdirFails = true
  · rw [if_pos hrd]
  · rw [if_neg hrd]
    dsimp only
    by_cases hcl : 0 < ((m.saves.map Prod.fst).filter
        (fun f => !((existingFiles w).contains f))).length
    · rw [if_pos hcl]
      rcases hsv : saveMetadata w (updateStatistics
          { m with saves := m.saves.filter (fun kv => (existingFiles w).contains kv.fst) })
        with e | w'
      · exact updateStatistics_totalSaves _
      · exact updateStatistics_totalSaves _
    · rw [if_neg hcl]

/-- C8: registration counters.  A registration that can read its file and
persist returns the built entry, whose `saveCount` is the previous entry's
count plus one (one when the filename was untracked); the stored record has
that entry under the filename and both `totalSaves` and
`statistics.totalSaveOperations` bumped by exactly one.  If the target file
cannot be read the whole call is the identity on record and world apart from
the thrown error (no partial entry).  And across every operation of the
manager, from any state with well-formed (duplicate-free) keys, `totalSaves`
never decreases and no surviving entry's `saveCount` decreases. -/
theorem C8_register_monotone (hash : List Nat → String) (w : World) (m : Metadata)
    (f : String) (info : SaveInfo) (now : Nat) :
    (∀ content, alookup w.saveFiles f = some content → w.writeFails = false →
      (registerSaveFile hash w m f info now).out =
        Except.ok (builtEntry hash m f info now content) ∧
      (builtEntry hash m f info now content).saveCount =
        (match alookup m.saves f with
          | some e => e.saveCount
          | none => 0) + 1 ∧
      alookup (registerSaveFile hash w m f info now).newMeta.saves f =
        some (builtEntry hash m f info now content) ∧
      (registerSaveFile hash w m f info now).newMeta.totalSaves = m.totalSaves + 1 ∧
      (registerSaveFile hash w m f info now).newMeta.statistics.totalSaveOperations =
        m.statistics.totalSaveOperations + 1) ∧
    (alookup w.saveFiles f = none →
      registerSaveFile hash w m f info now =
        ⟨m, w, Except.error ("Failed to register save file " ++ f ++ ": " ++ enoentMsg)⟩) ∧
    (∀ o : Op, (m.saves.map Prod.fst).Nodup →
      m.totalSaves ≤ (applyOp hash o (m, w)).1.totalSaves ∧
      (∀ g e e', alookup m.saves g = some e →
        alookup (applyOp hash o (m, w)).1.saves g = some e' →
        e.saveCount ≤ e'.saveCount)) := by
  refine ⟨?_, ?_, ?_⟩
  · intro content hread hw
    have hout := register_out hash w m f info now content hread hw
    have hmeta := register_newMeta hash w m f info now content hread
    refine ⟨hout, rfl, ?_, ?_, ?_⟩
    · rw [hmeta, updateStatistics_saves]
      exact alookup_aset_self m.saves f _
    · rw [hmeta, updateStatistics_totalSaves]
      rfl
    · rw [hmeta, updateStatistics_totalSaveOperations]
      rfl
  · intro hread
    exact register_miss hash w m f info now hread
  · intro o hnd
    cases o with
    | register f' info' now' =>
      dsimp only [applyOp]
      rcases hrf : alookup w.saveFiles f' with _ | content
      · rw [register_miss hash w m f' info' now' hrf]
        refine ⟨Nat.le_refl _, ?_⟩
        intro g e e' h1 h2
        rw [h1] at h2
        cases h2
        exact Nat.le_refl _
      · have hmeta := register_newMeta hash w m f' info' now' content hrf
        have hsaves : (registerMutated hash m f' info' now' content).saves =
            aset m.saves f' (builtEntry hash m f' info' now' content) := rfl
        constructor
        · rw [hmeta, updateStatistics_totalSaves]
          show m.totalSaves ≤ m.totalSaves + 1
          omega
        · intro g e e' h1 h2
          rw [hmeta, updateStatistics_saves, hsaves] at h2
          by_cases hgf : g = f'
          · subst hgf
            rw [alookup_aset_self] at h2
            cases h2
            show e.saveCount ≤ (match alookup m.saves g with
              | some e0 => e0.saveCount
              | none => 0) + 1
            rw [h1]
            dsimp only
            omega
          · rw [alookup_aset_ne m.saves f' g _ hgf] at h2
            rw [h1] at h2
            cases h2
            exact Nat.le_refl _
    | unregister f' =>
      dsimp only [applyOp]
      rcases ht : alookup m.saves f' with _ | e0
      · rw [unregister_newMeta_untracked w m f' ht]
        refine ⟨Nat.le_refl _, ?_⟩
        intro g e e' h1 h2
        rw [h1] at h2
        cases h2
        exact Nat.le_refl _
      · rw [unregister_newMeta_tracked w m f' e0 ht]
        refine ⟨Nat.le_refl _, ?_⟩
        intro g e e' h1 h2
        have hsaves : ({ m with saves := aerase m.saves f' } : Metadata).saves =
            aerase m.saves f' := rfl
        rw [hsaves] at h2
        by_cases hgf : g = f'
        · subst hgf
          rw [alookup_aerase_self hnd g] at h2
          cases h2
        · rw [alookup_aerase_ne m.saves f' g hgf, h1] at h2
          cases h2
          exact Nat.le_refl _
    | recordLoad f' now' =>
      dsimp only [applyOp]
      rw [recordLoad_newMeta]
      refine ⟨?_, ?_⟩
      · rw [recordLoadMutated_totalSaves]
      · intro g e e' h1 h2
        rw [recordLoadMutated_saves] at h2
        rcases ht : alookup m.saves f' with _ | e0
        · rw [ht] at h2
          dsimp only at h2
          rw [h1] at h2
          cases h2
          exact Nat.le_refl _
        · rw [ht] at h2
          dsimp only at h2
          by_cases hgf : g = f'
          · subst hgf
            rw [alookup_aset_self] at h2
            cases h2
            rw [h1] at ht
            cases ht
            exact Nat.le_refl _
          · rw [alookup_aset_ne m.saves f' g _ hgf, h1] at h2
            cases h2
            exact Nat.le_refl _
    | updateConfig cfg =>
      dsimp only [applyOp]
      rw [config_newMeta]
      refine ⟨Nat.le_refl _, ?_⟩
      intro g e e' h1 h2
      have hsaves : (configMutated m cfg).saves = m.saves := rfl
      rw [hsaves, h1] at h2
      cases h2
      exact Nat.le_refl _
    | cleanup =>
      dsimp only [applyOp]
      by_cases hrd : w.readdirFails = true
      · rw [cleanup_newMeta_readdirFail w m hrd]
        refine ⟨Nat.le_refl _, ?_⟩
        intro g e e' h1 h2
        rw [h1] at h2
        cases h2
        exact Nat.le_refl _
      · have hr : w.readdirFails = false := by
          cases h : w.readdirFails
          · rfl
          · exact absurd h hrd
        refine ⟨?_, ?_⟩
        · rw [cleanup_totalSaves]
        · intro g e e' h1 h2
          rw [cleanup_saves w m hr, alookup_filter] at h2
          by_cases hp : (existingFiles w).contains g = true
          · rw [if_pos hp, h1] at h2
            cases h2
            exact Nat.le_refl _
          · rw [if_neg hp] at h2
            cases h2

/-- Witness for C8 at a concrete registration over an already-tracked file. -/
theorem C8_register_monotone_witness :
    (registerSaveFile constHash wOneFile c2Meta "save1.json" {} 7).out =
      Except.ok (builtEntry constHash c2Meta "save1.json" {} 7 [1, 2, 3]) ∧
    (registerSaveFile constHash wOneFile c2Meta "save1.json" {} 7).newMeta.totalSaves =
      c2Meta.totalSaves + 1 :=
  ⟨((C8_register_monotone constHash wOneFile c2Meta "save1.json" {} 7).1
      [1, 2, 3] rfl rfl).1,
   ((C8_register_monotone constHash wOneFile c2Meta "save1.json" {} 7).1
      [1, 2, 3] rfl rfl).2.2.2.1⟩

/-- Every entry of the record has equal `created` and `lastModified`
timestamps. -/
def timestampsAligned (m : Metadata) : Prop :=
  ∀ kv ∈ m.saves, (Prod.snd kv).created = (Prod.snd kv).lastModified

theorem applyOp_timestampsAligned (hash : List Nat → String) (o : Op)
    (m : Metadata) (w : World) (h : timestampsAligned m) :
    timestampsAligned (applyOp hash o (m, w)).1 := by
  cases o with
  | register f' info' now' =>
    dsimp only [applyOp]
    rcases hrf : alookup w.saveFiles f' with _ | content
    · rw [register_miss hash w m f' info' now' hrf]
      exact h
    · rw [register_newMeta hash w m f' info' now' content hrf]
      intro kv hkv
      rw [updateStatistics_saves] at hkv
      have hkv2 : kv ∈ aset m.saves f' (builtEntry hash m f' info' now' content) := hkv
      rcases mem_aset hkv2 with h1 | h1
      · rw [h1]
        rfl
      · exact h kv h1
  | unregister f' =>
    dsimp only [applyOp]
    rcases ht : alookup m.saves f' with _ | e0
    · rw [unregister_newMeta_untracked w m f' ht]
      exact h
    · rw [unregister_newMeta_tracked w m f' e0 ht]
      intro kv hkv
      exact h kv (mem_aerase hkv)
  | recordLoad f' now' =>
    dsimp only [applyOp]
    rw [recordLoad_newMeta]
    intro kv hkv
    have hs := recordLoadMutated_saves m f' now'
    rw [hs] at hkv
    rcases ht : alookup m.saves f' with _ | e0
    · rw [ht] at hkv
      dsimp only at hkv
      exact h kv hkv
    · rw [ht] at hkv
      dsimp only at hkv
      rcases mem_aset hkv with h1 | h1
      · rw [h1]
        exact h (f', e0) (alookup_mem ht)
      · exact h kv h1
  | updateConfig cfg =>
    dsimp only [applyOp]
    rw [config_newMeta]
    exact h
  | cleanup =>
    dsimp only [applyOp]
    by_cases hrd : w.readdirFails = true
    · rw [cleanup_newMeta_readdirFail w m hrd]
      exact h
    · have hr : w.readdirFails = false := by
        cases hb : w.readdirFails
        · rfl
        · exact absurd hb hrd
      intro kv hkv
      rw [cleanup_saves w m hr] at hkv
      exact h kv (List.mem_filter.mp hkv).1

theorem runOps_timestampsAligned (hash : List Nat → String) (ops : List Op) :
    ∀ s : Metadata × World, timestampsAligned s.1 →
      timestampsAligned (runOps hash ops s).1 := by
  induction ops with
  | nil =>
    intro s h
    exact h
  | cons o rest ih =>
    intro s h
    exact ih (applyOp hash o s) (applyOp_timestampsAligned hash o s.1 s.2 h)

/-- C10: in every record reachable by running any sequence of manager
operations from the bootstrap record, every entry's `created` equals its
`lastModified` (no operation ever sets them apart), and a registration that
reads its file stores an entry whose `created` and `lastModified` are both
the registration time — re-registering an existing filename overwrites
`created` with the new time instead of preserving the original. -/
theorem C10_created_equals_lastModified (hash : List Nat → String) (ops : List Op)
    (w0 : World) :
    timestampsAligned (runOps hash ops (defaultMetadata, w0)).1 ∧
    (∀ (w : World) (m : Metadata) (f : String) (info : SaveInfo) (now : Nat)
        (content : List Nat) (e' : SaveEntry),
      alookup w.saveFiles f = some content →
      alookup (registerSaveFile hash w m f info now).newMeta.saves f = some e' →
      e'.created = now ∧ e'.lastModified = now) := by
  constructor
  · refine runOps_timestampsAligned hash ops (defaultMetadata, w0) ?_
    intro kv hkv
    exact absurd hkv (List.not_mem_nil kv)
  · intro w m f info now content e' hread hlook
    rw [register_newMeta hash w m f info now content hread, updateStatistics_saves] at hlook
    have h2 : alookup (aset m.saves f (builtEntry hash m f info now content)) f =
        some e' := hlook
    rw [alookup_aset_self] at h2
    cases h2
    exact ⟨rfl, rfl⟩

/-- Witness for C10 at a concrete re-registration: the stored entry carries
the new registration time in both timestamp fields. -/
theorem C10_created_equals_lastModified_witness :
    (builtEntry constHash c2Meta "save1.json" {} 99 [1, 2, 3]).created = 99 ∧
    (builtEntry constHash c2Meta "save1.json" {} 99 [1, 2, 3]).lastModified = 99 :=
  (C10_created_equals_lastModified constHash [] wOneFile).2 wOneFile c2Meta
    "save1.json" {} 99 [1, 2, 3]
    (builtEntry constHash c2Meta "save1.json" {} 99 [1, 2, 3]) rfl rfl

end SkidInc
